import Mathlib

/-!
Verification of the response-normalization pipeline of `gemini_car_lookup.py`
(the `GeminiCarLookupService` class and its helpers).

The embedding works on decoded JSON data: a Python value produced by
`json.loads` is one of None / bool / int / float / str / list / dict, which the
inductive type `Json` mirrors (`Json.null` plays the role of Python's `None`;
`Json.num` holds the numeric value as a rational, so the int/float distinction
is not preserved — every place the source inspects a number treats int and
float alike).  Dynamic-typing conventions used throughout, each noted at its
definition site: `.get` on a non-dict is treated as a key miss, and iterating a
non-list iterates nothing; in the source such values raise an uncaught
exception before any result is returned, so no modeled success is affected.
-/

namespace CarLookup

/-- Model of a decoded Python JSON value (the result of `json.loads`). -/
inductive Json where
  | null
  | bool (b : Bool)
  | num (q : Rat)
  | str (s : String)
  | arr (xs : List Json)
  | obj (kvs : List (String × Json))

/-- Python truthiness of a decoded JSON value (`bool(v)`). -/
def truthy : Json → Bool
  | .null => false
  | .bool b => b
  | .num q => q != 0
  | .str s => s != ""
  | .arr xs => !xs.isEmpty
  | .obj kvs => !kvs.isEmpty

/-- Python `a or b` on decoded values: the first operand if truthy, else the second. -/
def pyOr (a b : Json) : Json :=
  if truthy a then a else b

/-- Python `d.get(k)` (default `None`).  A non-dict receiver is treated as a
miss; in Python it would raise `AttributeError` before any result is built. -/
def jget : Json → String → Json
  | .obj kvs, k =>
    match kvs.find? (fun kv => kv.1 == k) with
    | some kv => kv.2
    | none => .null
  | _, _ => .null

/-- Python `d.get(k, default)` with an explicit default. -/
def jgetD : Json → String → Json → Json
  | .obj kvs, k, dflt =>
    match kvs.find? (fun kv => kv.1 == k) with
    | some kv => kv.2
    | none => dflt
  | _, _, dflt => dflt

/-- Python `k in d` for a dict (`False` on non-dicts). -/
def jsonHasKey : Json → String → Bool
  | .obj kvs, k => kvs.any (fun kv => kv.1 == k)
  | _, _ => false

/-- Whether the value is a dict (`isinstance(v, dict)`). -/
def Json.isObj : Json → Bool
  | .obj _ => true
  | _ => false

/-- Whether the value is a string (`isinstance(v, str)`). -/
def Json.isStr : Json → Bool
  | .str _ => true
  | _ => false

/-- Elements of a list value; a non-list yields no elements (iterating it in
Python would raise or iterate characters, never reaching a normal result). -/
def asArr : Json → List Json
  | .arr xs => xs
  | _ => []

/-- String content of a string value; any other value yields `""` (the source
only applies this where a non-string would raise `AttributeError`). -/
def asStr : Json → String
  | .str s => s
  | _ => ""

mutual

/-- Python `==` on decoded JSON values.  `True == 1` and `False == 0` hold
because `bool` is an `int` subtype; dict comparison is key-set based. -/
def pyEq : Json → Json → Bool
  | .null, .null => true
  | .bool a, .bool b => a == b
  | .bool a, .num q => (if a then (1 : Rat) else 0) == q
  | .num q, .bool b => q == (if b then (1 : Rat) else 0)
  | .num a, .num b => a == b
  | .str a, .str b => a == b
  | .arr xs, .arr ys => pyEqList xs ys
  | .obj xs, .obj ys => xs.length == ys.length && pyEqObj xs ys
  | _, _ => false

/-- Elementwise Python `==` on lists. -/
def pyEqList : List Json → List Json → Bool
  | [], [] => true
  | x :: xs, y :: ys => pyEq x y && pyEqList xs ys
  | _, _ => false

/-- Every key of the first dict maps to an equal value in the second. -/
def pyEqObj : List (String × Json) → List (String × Json) → Bool
  | [], _ => true
  | kv :: xs, ys =>
    (match ys.find? (fun kv2 => kv2.1 == kv.1) with
     | some kv2 => pyEq kv.2 kv2.2
     | none => false) && pyEqObj xs ys

end

/-! ## String helpers (Python `str` methods, on `List Char`) -/

/-- Opening brace character. -/
def lbraceC : Char := Char.ofNat 123

/-- Closing brace character. -/
def rbraceC : Char := Char.ofNat 125

/-- Python `str.isspace` for a single character (Unicode whitespace, by code
point: ASCII whitespace and separators, NEL, NBSP, the U+2000 range, line and
paragraph separators, narrow/medium spaces, and the ideographic space). -/
def pyIsSpace (c : Char) : Bool :=
  c == ' ' || c == '\t' || c == '\n' || c == '\r' ||
  c == '\x0b' || c == '\x0c' ||
  c == '\x1c' || c == '\x1d' || c == '\x1e' || c == '\x1f' ||
  c == '\x85' || c == '\xa0' ||
  c == ' ' || (' ' ≤ c && c ≤ ' ') ||
  c == ' ' || c == ' ' || c == ' ' || c == ' ' ||
  c == Char.ofNat 0x3000

/-- Python `s.strip()` on a character list. -/
def pyStripList (cs : List Char) : List Char :=
  (((cs.dropWhile pyIsSpace).reverse).dropWhile pyIsSpace).reverse

/-- Python `s.strip()`. -/
def pyStrip (s : String) : String :=
  String.mk (pyStripList s.data)

/-- Whether `pat` is a prefix of `cs` (used for `str.startswith` and search). -/
def listStarts : List Char → List Char → Bool
  | [], _ => true
  | _ :: _, [] => false
  | p :: ps, c :: cs => p == c && listStarts ps cs

/-- Whether `pat` occurs as a contiguous sublist of `cs` (Python `sub in s`). -/
def listHasSub (pat : List Char) : List Char → Bool
  | [] => pat.isEmpty
  | c :: cs => listStarts pat (c :: cs) || listHasSub pat cs

/-- Python `sub in s` for strings. -/
def strContains (s sub : String) : Bool :=
  listHasSub sub.data s.data

/-- Python `s.startswith(p)`. -/
def strStarts (s p : String) : Bool :=
  listStarts p.data s.data

/-- Python `s.split(sep)` helper for a non-empty separator `c0 :: sepRest`:
returns the piece before the first occurrence and the remaining pieces.  The
fuel argument only forces termination; `length + 1` is always enough. -/
def splitOnAux (c0 : Char) (sepRest : List Char) : Nat → List Char → List Char × List (List Char)
  | 0, cs => (cs, [])
  | _ + 1, [] => ([], [])
  | fuel + 1, c :: cs =>
    if listStarts (c0 :: sepRest) (c :: cs) then
      let (p, ps) := splitOnAux c0 sepRest fuel (cs.drop sepRest.length)
      ([], p :: ps)
    else
      let (p, ps) := splitOnAux c0 sepRest fuel cs
      (c :: p, ps)

/-- Python `s.split(sep)` for a non-empty separator string. -/
def pySplit (s sep : String) : List String :=
  match sep.data with
  | [] => [s]
  | c0 :: sepRest =>
    let (p, ps) := splitOnAux c0 sepRest (s.data.length + 1) s.data
    (p :: ps).map String.mk

/-- ASCII lowering of one character (`str.lower` restricted to ASCII; the
indicator phrases the source searches for are ASCII-only). -/
def charLower (c : Char) : Char :=
  if 'A' ≤ c && c ≤ 'Z' then Char.ofNat (c.toNat + 32) else c

/-- Python `s.lower()` (ASCII letters only). -/
def strLower (s : String) : String :=
  String.mk (s.data.map charLower)

/-- Python `s[:n]`. -/
def strTake (s : String) (n : Nat) : String :=
  String.mk (s.data.take n)

/-- Python `s[n:]`. -/
def strDropN (s : String) (n : Nat) : String :=
  String.mk (s.data.drop n)

/-- Python `s.isdigit()` restricted to ASCII digits: non-empty and all digits.
(Unicode-only digit characters, which `int()` would reject anyway, are not
modeled.) -/
def strIsDigit (s : String) : Bool :=
  !s.isEmpty && s.data.all Char.isDigit

/-- Numeric value of an ASCII digit string (`int(s)` for `s.isdigit()`). -/
def digitsToNat (ds : List Char) : Nat :=
  ds.foldl (fun n c => n * 10 + (c.toNat - 48)) 0

/-! ## JSON text parser (Python `json.loads` / `JSONDecoder.raw_decode`)

Faithful to CPython's `json` module for the standard grammar: whitespace
handling, `true`/`false`/`null`, the strict number regex
`-?(0|[1-9]\d*)(\.\d+)?([eE][+-]?\d+)?`, strings with the eight single-char
escapes and `\uXXXX` (surrogate pairs combined), strict rejection of raw
control characters, arrays, and objects (duplicate keys keep the first
position and the last value, as `dict(pairs)` does).  Not modeled: the
non-standard `NaN`/`Infinity` constants (floats have no place in `Rat`) and
the `int(s, 16)` whitespace quirks of `\u` escape parsing; no claim involves
either. -/

/-- JSON whitespace (the characters `json.decoder.WHITESPACE` skips). -/
def isJsonWs (c : Char) : Bool :=
  c == ' ' || c == '\t' || c == '\n' || c == '\r'

/-- Skip JSON whitespace. -/
def skipWs (cs : List Char) : List Char :=
  cs.dropWhile isJsonWs

/-- Value of one hex digit. -/
def hexDigitVal (c : Char) : Option Nat :=
  if '0' ≤ c && c ≤ '9' then some (c.toNat - 48)
  else if 'a' ≤ c && c ≤ 'f' then some (c.toNat - 87)
  else if 'A' ≤ c && c ≤ 'F' then some (c.toNat - 55)
  else none

/-- Value of a 4-hex-digit escape. -/
def hex4Val (h1 h2 h3 h4 : Char) : Option Nat := do
  let a ← hexDigitVal h1
  let b ← hexDigitVal h2
  let c ← hexDigitVal h3
  let d ← hexDigitVal h4
  pure (((a * 16 + b) * 16 + c) * 16 + d)

/-- Translation of a single-character string escape (`json.decoder.BACKSLASH`),
by the escaped character's code point. -/
def escChar : Char → Option Char
  | '"' => some (Char.ofNat 34)
  | '\\' => some (Char.ofNat 92)
  | '/' => some (Char.ofNat 47)
  | 'b' => some (Char.ofNat 8)
  | 'f' => some (Char.ofNat 12)
  | 'n' => some (Char.ofNat 10)
  | 'r' => some (Char.ofNat 13)
  | 't' => some (Char.ofNat 9)
  | _ => none

/-- Scan a JSON string body after the opening quote (`py_scanstring`, strict
mode).  A lone surrogate from `\uXXXX`, which Python keeps as a surrogate code
unit that `Char` cannot hold, is mapped through `Char.ofNat` (yielding NUL);
no claim involves surrogates.  The leading fuel argument only forces
termination; `length + 1` is always enough. -/
def parseJsonStringAux : Nat → List Char → List Char → Option (String × List Char)
  | 0, _, _ => none
  | _ + 1, _, [] => none
  | fuel + 1, acc, c :: rest =>
    if c == '"' then some (String.mk acc.reverse, rest)
    else if c == '\\' then
      match rest with
      | [] => none
      | e :: rest2 =>
        if e == 'u' then
          match rest2 with
          | h1 :: h2 :: h3 :: h4 :: rest3 =>
            match hex4Val h1 h2 h3 h4 with
            | none => none
            | some code =>
              if 0xD800 ≤ code && code ≤ 0xDBFF then
                let lowPair : Option (Nat × List Char) :=
                  match rest3 with
                  | b1 :: u1 :: g1 :: g2 :: g3 :: g4 :: rest4 =>
                    if b1 == '\\' && u1 == 'u' then
                      match hex4Val g1 g2 g3 g4 with
                      | some code2 =>
                        if 0xDC00 ≤ code2 && code2 ≤ 0xDFFF then
                          some (0x10000 + ((code - 0xD800) * 0x400) + (code2 - 0xDC00), rest4)
                        else none
                      | none => none
                    else none
                  | _ => none
                match lowPair with
                | some (combined, rest4) =>
                  parseJsonStringAux fuel (Char.ofNat combined :: acc) rest4
                | none => parseJsonStringAux fuel (Char.ofNat code :: acc) rest3
              else
                parseJsonStringAux fuel (Char.ofNat code :: acc) rest3
          | _ => none
        else
          match escChar e with
          | some ec => parseJsonStringAux fuel (ec :: acc) rest2
          | none => none
    else if c.toNat < 0x20 then none
    else parseJsonStringAux fuel (c :: acc) rest

/-- Greedy span of ASCII digits. -/
def digitSpan : List Char → List Char × List Char
  | [] => ([], [])
  | c :: cs =>
    if c.isDigit then
      let (d, r) := digitSpan cs
      (c :: d, r)
    else ([], c :: cs)

/-- The integer part `(0|[1-9]\d*)` of the JSON number regex. -/
def parseIntPart : List Char → Option (Nat × List Char)
  | [] => none
  | c :: cs =>
    if c == '0' then some (0, cs)
    else if c.isDigit then
      let (d, r) := digitSpan cs
      some (digitsToNat (c :: d), r)
    else none

/-- Parse a JSON number starting at `cs` (the regex
`-?(0|[1-9]\d*)(\.\d+)?([eE][+-]?\d+)?`, longest match).  The value is built
with integer arithmetic and `Rat.divInt` so that Python's exact decimal value
is produced. -/
def parseNumberFrom (cs : List Char) : Option (Json × List Char) :=
  let (neg, cs1) :=
    match cs with
    | c :: rest => if c == '-' then (true, rest) else (false, cs)
    | [] => (false, cs)
  match parseIntPart cs1 with
  | none => none
  | some (ip, cs2) =>
    let (fracDigits, cs3) :=
      match cs2 with
      | c :: rest =>
        if c == '.' then
          match digitSpan rest with
          | ([], _) => ([], cs2)
          | (ds, r) => (ds, r)
        else ([], cs2)
      | [] => ([], cs2)
    let (expVal, cs4) :=
      match cs3 with
      | c :: rest =>
        if c == 'e' || c == 'E' then
          let (esign, rest2) :=
            match rest with
            | d :: rest2 =>
              if d == '+' then ((1 : Int), rest2)
              else if d == '-' then ((-1 : Int), rest2)
              else ((1 : Int), rest)
            | [] => ((1 : Int), rest)
          match digitSpan rest2 with
          | ([], _) => ((0 : Int), cs3)
          | (ds, r) => (esign * (digitsToNat ds : Int), r)
        else ((0 : Int), cs3)
      | [] => ((0 : Int), cs3)
    let mantissa : Int := (ip * 10 ^ fracDigits.length + digitsToNat fracDigits : Nat)
    let signed : Int := if neg then -mantissa else mantissa
    let shift : Int := expVal - (fracDigits.length : Int)
    let value : Rat :=
      if 0 ≤ shift then ((signed * 10 ^ shift.toNat : Int) : Rat)
      else Rat.divInt signed (10 ^ (-shift).toNat)
    some (Json.num value, cs4)

/-- Insert a parsed object member as `dict(pairs)` does: a duplicate key keeps
its first position and takes the latest value. -/
def objInsert (kvs : List (String × Json)) (k : String) (v : Json) : List (String × Json) :=
  if kvs.any (fun kv => kv.1 == k) then
    kvs.map (fun kv => if kv.1 == k then (k, v) else kv)
  else kvs ++ [(k, v)]

mutual

/-- Parse one JSON value starting exactly at `cs` (no leading whitespace is
skipped, matching `JSONDecoder.raw_decode`).  `fuel` only forces termination;
`2 * length + 2` is always enough. -/
def parseJsonValue : Nat → List Char → Option (Json × List Char)
  | 0, _ => none
  | _ + 1, [] => none
  | fuel + 1, c :: cs =>
    if c == '"' then
      match parseJsonStringAux (cs.length + 1) [] cs with
      | some (s, r) => some (Json.str s, r)
      | none => none
    else if c == lbraceC then
      match skipWs cs with
      | d :: r =>
        if d == rbraceC then some (Json.obj [], r)
        else parseObjectItems fuel [] (skipWs cs)
      | [] => none
    else if c == '[' then
      match skipWs cs with
      | d :: r =>
        if d == ']' then some (Json.arr [], r)
        else parseArrayItems fuel [] (skipWs cs)
      | [] => none
    else if c == 't' then
      match cs with
      | 'r' :: 'u' :: 'e' :: r => some (Json.bool true, r)
      | _ => none
    else if c == 'f' then
      match cs with
      | 'a' :: 'l' :: 's' :: 'e' :: r => some (Json.bool false, r)
      | _ => none
    else if c == 'n' then
      match cs with
      | 'u' :: 'l' :: 'l' :: r => some (Json.null, r)
      | _ => none
    else
      parseNumberFrom (c :: cs)

/-- Parse the members of an object after `{` (whitespace already skipped, at
least one member present). -/
def parseObjectItems : Nat → List (String × Json) → List Char → Option (Json × List Char)
  | 0, _, _ => none
  | _ + 1, _, [] => none
  | fuel + 1, acc, c :: rest =>
    if c == '"' then
      match parseJsonStringAux (rest.length + 1) [] rest with
      | none => none
      | some (k, r1) =>
        match skipWs r1 with
        | ':' :: r3 =>
          match parseJsonValue fuel (skipWs r3) with
          | none => none
          | some (v, r4) =>
            let acc' := objInsert acc k v
            match skipWs r4 with
            | d :: r6 =>
              if d == ',' then parseObjectItems fuel acc' (skipWs r6)
              else if d == rbraceC then some (Json.obj acc', r6)
              else none
            | [] => none
        | _ => none
    else none

/-- Parse the elements of an array after `[` (whitespace already skipped, at
least one element present). -/
def parseArrayItems : Nat → List Json → List Char → Option (Json × List Char)
  | 0, _, _ => none
  | fuel + 1, acc, cs =>
    match parseJsonValue fuel cs with
    | none => none
    | some (v, r1) =>
      let acc' := acc ++ [v]
      match skipWs r1 with
      | d :: r2 =>
        if d == ',' then parseArrayItems fuel acc' (skipWs r2)
        else if d == ']' then some (Json.arr acc', r2)
        else none
      | [] => none

end

/-- Python `json.loads(s)`: skip leading whitespace, parse one value, and
require only whitespace after it. -/
def pyLoads (s : String) : Option Json :=
  let cs := skipWs s.data
  match parseJsonValue (2 * cs.length + 2) cs with
  | some (v, rest) => if (skipWs rest).isEmpty then some v else none
  | none => none

/-- Python `json.JSONDecoder().raw_decode(s)`: parse one value starting at
index 0 (no whitespace skipping), returning it with the unconsumed remainder. -/
def pyRawDecode (s : String) : Option (Json × List Char) :=
  parseJsonValue (2 * s.data.length + 2) s.data

end CarLookup

namespace CarLookup

/-! ## Data model and errors of `gemini_car_lookup.py` -/

/-- Errors raised by the service: `ValueError` for argument validation and
`GeminiCarLookupError` (a single exception class whose message distinguishes
the failure) for everything else.  Transport-level `requests` failures are
outside the modeled transport abstraction. -/
inductive PyErr where
  | valueError (msg : String)
  | geminiError (msg : String)

/-- Message of the no-candidates failure. -/
def noCandidatesMsg : String := "Gemini returned no candidates"

/-- Message of the missing-text failure. -/
def missingTextMsg : String := "Gemini candidate missing text content"

/-- Message of the malformed-JSON failure. -/
def notValidJsonMsg : String :=
  "Gemini response was not valid JSON. Enable include_raw_response for troubleshooting."

/-- Message of the unexpected-shape failure. -/
def unexpectedShapeMsg : String :=
  "Unexpected JSON structure; expected object with vehicles array."

/-- Message of the response-decoding failure. -/
def decodeFailedMsg : String := "Failed to decode JSON from Gemini response"

/-- Message raised when the grounding fallback is needed but not permitted. -/
def fallbackGuidanceMsg : String :=
  "Search Grounding is not supported for this API key/project. Enable Search Grounding or instantiate GeminiCarLookupService with allow_google_search_fallback=True to fall back to the legacy googleSearch tool."

/-- Message of a generic non-200 backend failure (with truncated body). -/
def apiErrorMsg (status : Nat) (text : String) : String :=
  "Gemini API error " ++ toString status ++ ": " ++ strTake text 200

/-- Notes text of the synthesized placeholder match. -/
def noGroundedDataMsg (modelCode : String) : String :=
  "No grounded data found for model code '" ++ modelCode ++ "'."

/-- The `VehicleMatch` dataclass.  Python leaves the fields dynamically typed;
only `displacement_cc` is guaranteed `int`-or-`None` by the coercion in
`_build_match`, so it alone gets a typed representation. -/
structure VehicleMatch where
  manufacturer : Json
  vehicle_name : Json
  displacement_cc : Option Int
  grade_or_variant : Json := Json.null
  years : Json := Json.null
  confidence : Json := Json.null
  notes : Json := Json.null
  sources : List Json := []

/-- Python `v in (None, [], "")`: the values `to_dict` filters out. -/
def omittedValue : Json → Bool
  | .null => true
  | .str s => s == ""
  | .arr xs => xs.isEmpty
  | _ => false

/-- The pairs produced by `asdict(self)`, in dataclass field order. -/
def VehicleMatch.fieldPairs (m : VehicleMatch) : List (String × Json) :=
  [("manufacturer", m.manufacturer),
   ("vehicle_name", m.vehicle_name),
   ("displacement_cc", match m.displacement_cc with
     | some n => Json.num (n : Rat)
     | none => Json.null),
   ("grade_or_variant", m.grade_or_variant),
   ("years", m.years),
   ("confidence", m.confidence),
   ("notes", m.notes),
   ("sources", Json.arr m.sources)]

/-- The dictionary returned by `VehicleMatch.to_dict`. -/
def VehicleMatch.to_dict (m : VehicleMatch) : List (String × Json) :=
  m.fieldPairs.filter (fun kv => !omittedValue kv.2)

/-- The `LookupResult` dataclass (`Json.null` models `None` in the optional
fields). -/
structure LookupResult where
  model_code : String
  «matches» : List VehicleMatch
  raw_response : Json := Json.null
  usage_metadata : Json := Json.null

/-- The dictionary returned by `LookupResult.to_dict`: `usage_metadata` and
`raw_response` entries are spread in only when the field `is not None`. -/
def LookupResult.to_dict (r : LookupResult) : List (String × Json) :=
  [("model_code", Json.str r.model_code),
   ("matches", Json.arr (r.«matches».map (fun m => Json.obj m.to_dict)))]
  ++ (match r.usage_metadata with
      | .null => []
      | u => [("usage_metadata", u)])
  ++ (match r.raw_response with
      | .null => []
      | u => [("raw_response", u)])

/-! ## Service state, payload building, and the API call -/

/-- The mutable state of a `GeminiCarLookupService` instance.  `api_key`,
`model_name`, `timeout_seconds` and `endpoint` belong to the transport
adapter, which the spec treats as an external collaborator, and are not
modeled; `system_instruction` and the response mime/schema settings are kept
as decoded values (`Json.null` for `None`). -/
structure ServiceState where
  include_raw_response : Bool
  tools : List Json
  uses_search_retrieval : Bool
  allow_google_search_fallback : Bool
  system_instruction : Json
  response_language : String
  response_mime_type : Json
  response_schema : Json

/-- Recomputation of `_uses_search_retrieval` from a tool list
(`any(isinstance(tool, dict) and "googleSearchRetrieval" in tool ...)`). -/
def computeUsesSearchRetrieval (tools : List Json) : Bool :=
  tools.any (fun tool => tool.isObj && jsonHasKey tool "googleSearchRetrieval")

/-- An outbound request body, with the fields `_build_payload` sets
(`systemInstruction = Json.null` models the key being absent). -/
structure Payload where
  contents : Json
  tools : List Json
  generationConfig : Json
  systemInstruction : Json

/-- The `language_instruction` f-string of `_build_payload`. -/
def languageInstructionFor (responseLanguage : String) : String :=
  if !responseLanguage.isEmpty then
    "\n全ての文字列フィールド(manufacturer, vehicle_name, grade_or_variant, years, notes, confidence)は"
      ++ responseLanguage ++ "で記述してください。"
  else ""

/-- `PROMPT_TEMPLATE.format(model_code=..., language_instruction=...)`. -/
def promptTemplate (modelCode languageInstruction : String) : String :=
  "あなたは自動車データリサーチアシスタントです。"
  ++ "車両型式『" ++ modelCode ++ "』に対応する車両情報を、Google検索ツールで調査してください"
  ++ languageInstruction
  ++ "LLMの事前知識や学習データに基づく推測・補完は一切行わず、"
  ++ "必ず実在する情報源に裏付けられたデータのみを使用してください。"
  ++ "裏付けの取れない情報は回答に含めてはいけません。"
  ++ "複数の車種が確認された場合は、別オブジェクトとして扱ってください。"
  ++ "回答はJSON形式のみとし、トップレベルに`vehicles`配列を置きます。"
  ++ "各要素には manufacturer, vehicle_name, displacement_cc（整数）, "
  ++ "confidence（'high'|'medium'|'low'）, grade_or_variant(グレード配列), sources（URL配列）を含めてください。"
  ++ "根拠が弱い場合でも候補を返してよいが、confidence を 'medium' または 'low' に設定し、"
  ++ "全く根拠が得られない場合のみ、`vehicles` を空配列とし、notes にその理由を説明します。"
  ++ "情報の捏造・推測・補完は禁止です。"
  ++ "Never guess, infer, or hallucinate likely models."
  ++ "Perform at most one grounded web search query, and stop after the first valid source is found."

/-- `GeminiCarLookupService._build_payload`. -/
def buildPayload (svc : ServiceState) (modelCode : String) : Payload :=
  let userPrompt := promptTemplate modelCode (languageInstructionFor svc.response_language)
  let baseConfig : List (String × Json) :=
    [("temperature", Json.num 0), ("topK", Json.num 1), ("topP", Json.num 1)]
  let generationConfig :=
    if truthy svc.response_schema then
      Json.obj (baseConfig ++ [("responseSchema", svc.response_schema)])
    else if truthy svc.response_mime_type then
      Json.obj (baseConfig ++ [("responseMimeType", svc.response_mime_type)])
    else Json.obj baseConfig
  { contents := Json.arr [Json.obj
      [("role", Json.str "user"),
       ("parts", Json.arr [Json.obj [("text", Json.str userPrompt)]])]]
    tools := svc.tools
    generationConfig := generationConfig
    systemInstruction :=
      if truthy svc.system_instruction then
        Json.obj [("parts", Json.arr [Json.obj [("text", svc.system_instruction)]])]
      else Json.null }

/-- A transport-level response (`requests.Response`): status code and body
text; `response.json()` is decoding of the body text. -/
structure HttpResponse where
  status_code : Nat
  text : String

/-- `GeminiCarLookupService._decode_response_json`. -/
def decodeResponseJson (response : HttpResponse) : Except PyErr Json :=
  match pyLoads response.text with
  | some j => .ok j
  | none => .error (.geminiError decodeFailedMsg)

/-- `GeminiCarLookupService._should_retry_without_grounding`. -/
def shouldRetryWithoutGrounding (svc : ServiceState) (statusCode : Nat)
    (responseBody : String) : Bool :=
  if statusCode != 400 || !svc.uses_search_retrieval then false
  else
    let lowered := strLower responseBody
    strContains lowered "search grounding is not supported"
      || strContains lowered "groundingmode"

/-- The loop body of `_build_google_search_fallback`: kept tools (every dict
with a `googleSearchRetrieval` key skipped) and whether a kept dict already
carries `googleSearch`. -/
def fallbackToolsScan : List Json → List Json × Bool
  | [] => ([], false)
  | tool :: rest =>
    let (acc, has) := fallbackToolsScan rest
    match tool with
    | .obj _ =>
      if jsonHasKey tool "googleSearchRetrieval" then (acc, has)
      else (tool :: acc, has || jsonHasKey tool "googleSearch")
    | _ => (tool :: acc, has)

/-- `GeminiCarLookupService._build_google_search_fallback` (the `deepcopy` is
the identity on pure values; `payload["tools"]` is always set by
`_build_payload`, so the `.get("tools", []) or []` guard is the field itself). -/
def buildGoogleSearchFallback (payload : Payload) : Payload × List Json :=
  let (kept, hasGoogleSearch) := fallbackToolsScan payload.tools
  let fallbackTools :=
    if hasGoogleSearch then kept
    else kept ++ [Json.obj [("googleSearch", Json.obj [])]]
  ({ payload with tools := fallbackTools }, fallbackTools)

/-- `GeminiCarLookupService._call_api`, with the network abstracted as a
function from payloads to responses.  Returns the decoded body or error, the
service state after the call (`self.tools` is durably rewritten when a
fallback retry succeeds), and the list of requests issued, in order. -/
def callApi (svc : ServiceState) (payload : Payload)
    (transport : Payload → HttpResponse) :
    Except PyErr Json × ServiceState × List Payload :=
  let response := transport payload
  if response.status_code == 200 then
    (decodeResponseJson response, svc, [payload])
  else if shouldRetryWithoutGrounding svc response.status_code response.text then
    if svc.allow_google_search_fallback then
      let (fallbackPayload, fallbackTools) := buildGoogleSearchFallback payload
      let fallbackResponse := transport fallbackPayload
      if fallbackResponse.status_code == 200 then
        let svc' := { svc with
          tools := fallbackTools
          uses_search_retrieval := computeUsesSearchRetrieval fallbackTools }
        (decodeResponseJson fallbackResponse, svc', [payload, fallbackPayload])
      else
        (.error (.geminiError
            (apiErrorMsg fallbackResponse.status_code fallbackResponse.text)),
         svc, [payload, fallbackPayload])
    else
      (.error (.geminiError fallbackGuidanceMsg), svc, [payload])
  else
    (.error (.geminiError (apiErrorMsg response.status_code response.text)),
     svc, [payload])

/-! ## Response normalization -/

/-- Whether the value is a list (`isinstance(v, list)`). -/
def Json.isArr : Json → Bool
  | .arr _ => true
  | _ => false

/-- Join with newlines (`"\n".join(...)`). -/
def strJoinNL (xs : List String) : String :=
  String.mk (List.intercalate ['\n'] (xs.map String.data))

/-- `GeminiCarLookupService._collect_text_parts`. -/
def collectTextParts (candidate : Json) : String :=
  let parts := asArr (jgetD (jgetD candidate "content" (Json.obj [])) "parts" (Json.arr []))
  let textParts := parts.filterMap (fun part =>
    if truthy (jget part "text") then some (asStr (jgetD part "text" (Json.str ""))) else none)
  pyStrip (strJoinNL (textParts.filter (fun t => t != "")))

mutual

/-- Size of a JSON value, used as conversion fuel (strictly larger than the
nesting depth). -/
def jsonSize : Json → Nat
  | .null => 1
  | .bool _ => 1
  | .num _ => 1
  | .str _ => 1
  | .arr xs => 1 + jsonSizeList xs
  | .obj kvs => 1 + jsonSizeObj kvs

/-- Total size of a list of JSON values. -/
def jsonSizeList : List Json → Nat
  | [] => 0
  | x :: xs => jsonSize x + jsonSizeList xs

/-- Total size of the members of a JSON object. -/
def jsonSizeObj : List (String × Json) → Nat
  | [] => 0
  | kv :: kvs => jsonSize kv.2 + jsonSizeObj kvs

end

mutual

/-- `GeminiCarLookupService._convert_struct_value`.  The fuel argument only
forces termination; `jsonSize` of the value is always enough. -/
def convertStructValue : Nat → Json → Json
  | 0, sv => sv
  | fuel + 1, sv =>
    match jget sv "fields" with
    | .obj fkvs => Json.obj (fkvs.map (fun kv => (kv.1, convertProtoValue fuel kv.2)))
    | _ => sv

/-- `GeminiCarLookupService._convert_proto_value`. -/
def convertProtoValue : Nat → Json → Json
  | 0, v => v
  | fuel + 1, v =>
    match v with
    | .obj _ =>
      if jsonHasKey v "stringValue" then jget v "stringValue"
      else if jsonHasKey v "numberValue" then jget v "numberValue"
      else if jsonHasKey v "boolValue" then jget v "boolValue"
      else if jsonHasKey v "nullValue" then Json.null
      else if jsonHasKey v "structValue" then convertStructValue fuel (jget v "structValue")
      else if jsonHasKey v "listValue" then
        Json.arr ((asArr (jgetD (jget v "listValue") "values" (Json.arr []))).map
          (convertProtoValue fuel))
      else if jsonHasKey v "jsonValue" then jget v "jsonValue"
      else v
    | _ => v

end

/-- The loop of `_extract_structured_candidate` over the candidate parts:
the first part carrying `structValue` or `jsonValue` wins; `Json.null` plays
the role of Python's `None` result. -/
def extractStructuredCandidateAux : List Json → Json
  | [] => Json.null
  | part :: rest =>
    if jsonHasKey part "structValue" then
      convertStructValue (jsonSize (jget part "structValue")) (jget part "structValue")
    else if jsonHasKey part "jsonValue" then jget part "jsonValue"
    else extractStructuredCandidateAux rest

/-- `GeminiCarLookupService._extract_structured_candidate`. -/
def extractStructuredCandidate (candidate : Json) : Json :=
  extractStructuredCandidateAux
    (asArr (jgetD (jgetD candidate "content" (Json.obj [])) "parts" (Json.arr [])))

/-- `_strip_code_fence`. -/
def stripCodeFence (text : String) : String :=
  let stripped := pyStrip text
  if !strStarts stripped "```" then stripped
  else
    let parts := pySplit stripped "```"
    if parts.length < 2 then stripped
    else
      let inner := parts.getD 1 ""
      let inner := if strStarts inner "json" then strDropN inner 4 else inner
      pyStrip inner

/-- `GeminiCarLookupService._load_structured_payload`: strict `json.loads`
first, then `raw_decode` of the leading value with any trailing text
discarded, else the malformed-response error. -/
def loadStructuredPayload (text : String) : Except PyErr Json :=
  let cleaned := stripCodeFence text
  match pyLoads cleaned with
  | some v => .ok v
  | none =>
    match pyRawDecode cleaned with
    | some (obj, _) => .ok obj
    | none => .error (.geminiError notValidJsonMsg)

/-- `GeminiCarLookupService._extract_vehicle_payloads`. -/
def extractVehiclePayloads (structured : Json) : Except PyErr (List Json) :=
  match structured with
  | .obj _ =>
    if jsonHasKey structured "vehicles" && (jget structured "vehicles").isArr then
      .ok ((asArr (jget structured "vehicles")).filter Json.isObj)
    else .ok [structured]
  | .arr xs => .ok (xs.filter Json.isObj)
  | _ => .error (.geminiError unexpectedShapeMsg)

/-- The `sources` list `_extract_grounded_sources` accumulates before its
de-duplication step: grounding-chunk URLs, then grounding-support URLs, then
citation URLs, in scan order. -/
def rawGroundedSources (candidate : Json) : List Json :=
  let metadata := pyOr (jget candidate "groundingMetadata") (Json.obj [])
  let chunkUrls := (asArr (jgetD metadata "groundingChunks" (Json.arr []))).foldl
    (fun acc chunk =>
      if chunk.isObj then
        let web := pyOr (jget chunk "web") (Json.obj [])
        let url := pyOr (jget web "uri") (jget web "url")
        if truthy url then acc ++ [url] else acc
      else acc) []
  let supportUrls := (asArr (jgetD metadata "groundingSupports" (Json.arr []))).foldl
    (fun acc support =>
      if support.isObj then
        (asArr (jgetD support "groundingChunks" (Json.arr []))).foldl
          (fun acc2 ref =>
            if ref.isObj then
              let web := pyOr (jget ref "web") (Json.obj [])
              let url := pyOr (jget web "uri") (jget web "url")
              if truthy url then acc2 ++ [url] else acc2
            else acc2) acc
      else acc) chunkUrls
  (asArr (jgetD metadata "citations" (Json.arr []))).foldl
    (fun acc citation =>
      if citation.isObj then
        let url := jget citation "url"
        if truthy url then acc ++ [url] else acc
      else acc) supportUrls

/-- The de-duplication step of `_extract_grounded_sources`: the insertion
ordered dict used as an ordered set, keys compared with Python `==`.  (A
non-hashable URL value — a list or dict — would raise in Python before any
result is returned; here it is treated as an ordinary key.) -/
def dedupSources (urls : List Json) : List Json :=
  urls.foldl (fun acc url =>
    if acc.any (fun v => pyEq v url) then acc else acc ++ [url]) []

/-- `GeminiCarLookupService._extract_grounded_sources`. -/
def extractGroundedSources (candidate : Json) : List Json :=
  dedupSources (rawGroundedSources candidate)

/-- Python `int(x)` on a numeric value: truncation toward zero. -/
def ratTrunc (q : Rat) : Int :=
  q.num.tdiv q.den

/-- The per-vehicle source merge of `_build_match`: start from the default
sources and append string URLs not already present (Python `in`, i.e. `==`). -/
def mergeSources (defaults : List Json) (extra : Json) : List Json :=
  match extra with
  | .arr xs => xs.foldl (fun acc url =>
      if url.isStr && !(acc.any (fun v => pyEq v url)) then acc ++ [url] else acc)
      defaults
  | _ => defaults

/-- `GeminiCarLookupService._build_match`.  The `Json.bool` displacement case
follows Python, where `bool` is an `int` subtype and passes the
`isinstance(displacement, (int, float))` check. -/
def buildMatch (item : Json) (defaultSources : List Json) : VehicleMatch :=
  let displacement : Option Int :=
    match jget item "displacement_cc" with
    | .str s => if strIsDigit s then some (digitsToNat s.data : Int) else none
    | .num q => some (ratTrunc q)
    | .bool b => some (if b then 1 else 0)
    | _ => none
  let sources := mergeSources defaultSources (jget item "sources")
  let confidenceRaw := jget item "confidence"
  let confidence :=
    if truthy confidenceRaw && confidenceRaw.isStr then Json.str (strLower (asStr confidenceRaw))
    else confidenceRaw
  { manufacturer := jget item "manufacturer"
    vehicle_name := pyOr (pyOr (jget item "vehicle_name") (jget item "car_name")) (jget item "model")
    displacement_cc := displacement
    grade_or_variant := jget item "grade_or_variant"
    years := jget item "years"
    confidence := confidence
    notes := jget item "notes"
    sources := sources }

/-- The `[part.strip() for part in name.split(delimiter) if part.strip()]`
comprehension of `_split_vehicle_name`. -/
def delimParts (name delim : String) : List String :=
  ((pySplit name delim).map pyStrip).filter (fun p => !p.isEmpty)

/-- `GeminiCarLookupService._split_vehicle_name`: the delimiters `"/"` then
`"／"` are tried in order; the first yielding more than one non-empty trimmed
segment wins. -/
def splitVehicleName (name : String) : List String :=
  if name == "" then []
  else if strContains name "/" && 1 < (delimParts name "/").length then delimParts name "/"
  else if strContains name "／" && 1 < (delimParts name "／").length then delimParts name "／"
  else [name]

/-- The per-match body of the `_expand_vehicle_names` loop.  A truthy
non-string `vehicle_name` would raise `AttributeError` at `.strip()` in
Python; it is kept unsplit here (`asStr`), which no modeled claim touches. -/
def expandOne (m : VehicleMatch) : List VehicleMatch :=
  let name := pyStrip (asStr (pyOr m.vehicle_name (Json.str "")))
  if name == "" then [m]
  else
    let splitNames := splitVehicleName name
    if splitNames.length ≤ 1 then [m]
    else splitNames.map (fun n => { m with vehicle_name := Json.str n })

/-- `GeminiCarLookupService._expand_vehicle_names`. -/
def expandVehicleNames : List VehicleMatch → List VehicleMatch
  | [] => []
  | m :: rest => expandOne m ++ expandVehicleNames rest

/-- The match `_parse_matches` synthesizes when the expanded list is empty. -/
def placeholderMatch (modelCode : String) (sources : List Json) : VehicleMatch :=
  { manufacturer := Json.null
    vehicle_name := Json.null
    displacement_cc := none
    notes := Json.str (noGroundedDataMsg modelCode)
    confidence := Json.str "low"
    sources := sources }

/-- The straight-line body of `_parse_matches` before the empty-list check:
candidate selection, structured-or-text extraction, shape normalization,
match building and name expansion.  Returns the expanded matches and the
default source list. -/
def normalizeCandidate (response : Json) :
    Except PyErr (List VehicleMatch × List Json) := do
  let candidates := asArr (pyOr (jget response "candidates") (Json.arr []))
  match candidates with
  | [] => throw (.geminiError noCandidatesMsg)
  | primary :: _ =>
    let structured := extractStructuredCandidate primary
    let structuredV ←
      (match structured with
       | .null =>
         let responseText := collectTextParts primary
         if responseText.isEmpty then throw (.geminiError missingTextMsg)
         else loadStructuredPayload responseText
       | sv => pure sv)
    let vehiclePayloads ← extractVehiclePayloads structuredV
    let sources := extractGroundedSources primary
    let built := vehiclePayloads.map (fun item => buildMatch item sources)
    pure (expandVehicleNames built, sources)

/-- `GeminiCarLookupService._parse_matches`: the normalization pipeline plus
the empty-result policy. -/
def parseMatches (response : Json) (modelCode : String) :
    Except PyErr (List VehicleMatch) := do
  let (expanded, sources) ← normalizeCandidate response
  if expanded.isEmpty then pure [placeholderMatch modelCode sources]
  else pure expanded

/-- `GeminiCarLookupService.lookup`: argument validation, payload building,
the API call, parsing, and result assembly.  Returns the outcome, the service
state after the call, and the requests issued. -/
def lookup (svc : ServiceState) (modelCode : String)
    (transport : Payload → HttpResponse) :
    Except PyErr LookupResult × ServiceState × List Payload :=
  if modelCode == "" || pyStrip modelCode == "" then
    (.error (.valueError "model_code must be a non-empty string"), svc, [])
  else
    let normalizedCode := pyStrip modelCode
    let payload := buildPayload svc normalizedCode
    let (responseE, svc', requests) := callApi svc payload transport
    match responseE with
    | .error e => (.error e, svc', requests)
    | .ok response =>
      match parseMatches response normalizedCode with
      | .error e => (.error e, svc', requests)
      | .ok parsed =>
        (.ok { model_code := normalizedCode
               «matches» := parsed
               raw_response := if svc.include_raw_response then response else Json.null
               usage_metadata := jget response "usageMetadata" },
         svc', requests)

end CarLookup

namespace CarLookup

/-! ## Supporting lemmas -/

/-- Dropping a prefix by a predicate leaves a suffix of the original list. -/
theorem exists_append_dropWhile (p : Char → Bool) :
    ∀ l : List Char, ∃ t, t ++ l.dropWhile p = l := by
  intro l
  induction l with
  | nil => exact ⟨[], rfl⟩
  | cons c cs ih =>
    by_cases hc : p c
    · obtain ⟨t, ht⟩ := ih
      exact ⟨c :: t, by simp [List.dropWhile, hc, ht]⟩
    · exact ⟨[], by simp [List.dropWhile, hc]⟩

/-- The head surviving `dropWhile` fails the predicate. -/
theorem head_dropWhile_false (p : Char → Bool) :
    ∀ (l : List Char) (x : Char) (xs : List Char), l.dropWhile p = x :: xs → p x = false := by
  intro l
  induction l with
  | nil => intro x xs h; cases h
  | cons c cs ih =>
    intro x xs h
    by_cases hc : p c
    · exact ih x xs (by simpa [List.dropWhile, hc] using h)
    · simp only [List.dropWhile, hc] at h
      cases h
      simpa using hc

/-- JSON whitespace is Python whitespace. -/
theorem pyIsSpace_of_isJsonWs {c : Char} (h : isJsonWs c = true) : pyIsSpace c = true := by
  simp only [isJsonWs, Bool.or_eq_true, beq_iff_eq] at h
  rcases h with ((h | h) | h) | h <;> subst h <;> rfl

/-- A stripped string has no leading JSON whitespace to skip. -/
theorem skipWs_pyStripList (l : List Char) : skipWs (pyStripList l) = pyStripList l := by
  unfold pyStripList skipWs
  obtain ⟨t, ht⟩ := exists_append_dropWhile pyIsSpace (l.dropWhile pyIsSpace).reverse
  cases hre : ((l.dropWhile pyIsSpace).reverse.dropWhile pyIsSpace).reverse with
  | nil => rfl
  | cons x xs =>
    have hrev := congrArg List.reverse ht
    rw [List.reverse_append, List.reverse_reverse] at hrev
    rw [hre] at hrev
    have hx : pyIsSpace x = false := by
      apply head_dropWhile_false pyIsSpace l x (xs ++ t.reverse)
      rw [← hrev]
      simp
    have hxj : isJsonWs x = false := by
      cases hj : isJsonWs x
      · rfl
      · rw [pyIsSpace_of_isJsonWs hj] at hx; cases hx
    simp [List.dropWhile, hxj]

/-- Every branch of `stripCodeFence` returns a stripped string. -/
theorem stripCodeFence_eq_strip (text : String) :
    ∃ u : String, stripCodeFence text = pyStrip u := by
  unfold stripCodeFence
  dsimp only
  split_ifs <;> exact ⟨_, rfl⟩

/-- A fence-stripped text starts with no JSON whitespace. -/
theorem skipWs_stripCodeFence (text : String) :
    skipWs (stripCodeFence text).data = (stripCodeFence text).data := by
  obtain ⟨u, hu⟩ := stripCodeFence_eq_strip text
  rw [hu]
  exact skipWs_pyStripList u.data

end CarLookup

namespace CarLookup

/-- On a fence-stripped text, strict `json.loads` is `raw_decode` plus the
only-whitespace-remains check. -/
theorem pyLoads_stripCodeFence (text : String) :
    pyLoads (stripCodeFence text) =
      (match pyRawDecode (stripCodeFence text) with
       | some (v, rest) => if (skipWs rest).isEmpty then some v else none
       | none => none) := by
  unfold pyLoads pyRawDecode
  rw [skipWs_stripCodeFence]

/-- When the fence-stripped text starts with a well-formed value, the
normalizer returns it. -/
theorem loadStructuredPayload_of_rawDecode (text : String) (v : Json) (rest : List Char)
    (h : pyRawDecode (stripCodeFence text) = some (v, rest)) :
    loadStructuredPayload text = .ok v := by
  unfold loadStructuredPayload
  dsimp only
  rw [pyLoads_stripCodeFence, h]
  by_cases he : (skipWs rest).isEmpty <;> simp [he]

/-- When the fence-stripped text has no leading well-formed value, the
normalizer fails with the malformed-response error. -/
theorem loadStructuredPayload_of_rawDecode_none (text : String)
    (h : pyRawDecode (stripCodeFence text) = none) :
    loadStructuredPayload text = .error (.geminiError notValidJsonMsg) := by
  unfold loadStructuredPayload
  dsimp only
  rw [pyLoads_stripCodeFence, h]

/-- C5: for every candidate text whose fence-stripped content begins with a
well-formed JSON value, `_load_structured_payload` succeeds with that leading
value, discarding trailing text; the malformed-response error is raised
exactly when the fence-stripped text has no leading well-formed JSON value,
and that error's message advises enabling `include_raw_response`. -/
theorem c5_leading_json_value (text : String) :
    (∀ (v : Json) (rest : List Char),
        pyRawDecode (stripCodeFence text) = some (v, rest) →
        loadStructuredPayload text = .ok v)
  ∧ ((∃ msg, loadStructuredPayload text = .error msg) ↔
        pyRawDecode (stripCodeFence text) = none)
  ∧ (loadStructuredPayload text = .error (.geminiError notValidJsonMsg) ↔
        pyRawDecode (stripCodeFence text) = none)
  ∧ strContains notValidJsonMsg "include_raw_response" = true := by
  refine ⟨fun v rest h => loadStructuredPayload_of_rawDecode text v rest h, ?_, ?_, by decide⟩
  · constructor
    · rintro ⟨msg, h⟩
      cases hr : pyRawDecode (stripCodeFence text) with
      | none => rfl
      | some p =>
        rw [loadStructuredPayload_of_rawDecode text p.1 p.2 hr] at h
        cases h
    · intro hr
      exact ⟨_, loadStructuredPayload_of_rawDecode_none text hr⟩
  · constructor
    · intro h
      cases hr : pyRawDecode (stripCodeFence text) with
      | none => rfl
      | some p =>
        rw [loadStructuredPayload_of_rawDecode text p.1 p.2 hr] at h
        cases h
    · exact loadStructuredPayload_of_rawDecode_none text

/-- C5 witness: a leading object with trailing prose parses to the object, and
a non-JSON text hits the malformed branch. -/
theorem c5_leading_json_value_witness :
    loadStructuredPayload "\x7b\"a\": 1\x7d trailing prose" = .ok (Json.obj [("a", Json.num 1)]) ∧
    (loadStructuredPayload "not json at all" = .error (.geminiError notValidJsonMsg) ↔
      pyRawDecode (stripCodeFence "not json at all") = none) :=
  ⟨(c5_leading_json_value "\x7b\"a\": 1\x7d trailing prose").1
      (Json.obj [("a", Json.num 1)]) (" trailing prose".data) rfl,
   (c5_leading_json_value "not json at all").2.2.1⟩

end CarLookup

namespace CarLookup

/-- A raw vehicle object carrying a negative numeric displacement. -/
def negDisplacementItem : Json := Json.obj [("displacement_cc", Json.num (-100))]

/-- C6 counterexample: on a raw vehicle object with numeric displacement
`-100`, the built match's `displacement_cc` is `-100`, not unset and not a
non-negative integer. -/
theorem c6_counterexample_negative_displacement :
    ¬ ((buildMatch negDisplacementItem []).displacement_cc = none ∨
       ∀ n : Int, (buildMatch negDisplacementItem []).displacement_cc = some n → 0 ≤ n) := by
  intro h
  have hd : (buildMatch negDisplacementItem []).displacement_cc = some (-100) := rfl
  rcases h with h | h
  · rw [hd] at h
    cases h
  · have := h (-100) hd
    omega

/-- C6 (amended): `displacement_cc` of a built match is unset or an integer,
and it is negative only when the raw `displacement_cc` value was a negative
number; digit-only strings, booleans, and non-numeric values never produce a
negative displacement. -/
theorem c6_amended_displacement_sign (item : Json) (ds : List Json) (n : Int)
    (h : (buildMatch item ds).displacement_cc = some n) (hneg : n < 0) :
    ∃ q : Rat, jget item "displacement_cc" = Json.num q ∧ q < 0 := by
  have hd : (buildMatch item ds).displacement_cc =
      (match jget item "displacement_cc" with
       | .str s => if strIsDigit s then some ((digitsToNat s.data : Int)) else none
       | .num q => some (ratTrunc q)
       | .bool b => some (if b then 1 else 0)
       | _ => none) := rfl
  rw [hd] at h
  cases hj : jget item "displacement_cc" with
  | str s =>
    rw [hj] at h
    by_cases hdig : strIsDigit s
    · simp only [hdig, if_true] at h
      have : n = (digitsToNat s.data : Int) := by
        simpa using h.symm
      omega
    · simp [hdig] at h
  | num q =>
    rw [hj] at h
    refine ⟨q, rfl, ?_⟩
    have hn : n = ratTrunc q := by simpa using h.symm
    by_contra hq
    push_neg at hq
    have hqnum : 0 ≤ q.num := Rat.num_nonneg.mpr hq
    have : 0 ≤ ratTrunc q := Int.tdiv_nonneg hqnum (by positivity)
    omega
  | bool b =>
    rw [hj] at h
    cases b <;> (simp_all; try omega)
  | null => rw [hj] at h; cases h
  | arr xs => rw [hj] at h; cases h
  | obj kvs => rw [hj] at h; cases h

/-- C6 witness for the amended statement, at the counterexample input. -/
theorem c6_amended_displacement_sign_witness :
    ∃ q : Rat, jget negDisplacementItem "displacement_cc" = Json.num q ∧ q < 0 :=
  c6_amended_displacement_sign negDisplacementItem [] (-100) rfl (by decide)

end CarLookup

namespace CarLookup

/-- When the separator does not occur, the split scan returns the whole list
as a single piece (any fuel). -/
theorem splitOnAux_of_not_sub (c0 : Char) (rest : List Char) :
    ∀ (fuel : Nat) (cs : List Char), listHasSub (c0 :: rest) cs = false →
      splitOnAux c0 rest fuel cs = (cs, []) := by
  intro fuel
  induction fuel with
  | zero => intro cs _; rfl
  | succ f ih =>
    intro cs h
    cases cs with
    | nil => rfl
    | cons c cs' =>
      simp only [listHasSub, Bool.or_eq_false_iff] at h
      simp [splitOnAux, h.1, ih cs' h.2]

/-- Recovering a string from its character data. -/
theorem strMkData (s : String) : String.mk s.data = s := by
  cases s
  rfl

/-- Python `s.split(sep)` with a non-occurring non-empty separator yields the
whole string. -/
theorem pySplit_of_not_contains (s sep : String) (h : strContains s sep = false)
    (hne : sep ≠ "") : pySplit s sep = [s] := by
  unfold pySplit
  cases hd : sep.data with
  | nil =>
    exfalso
    apply hne
    have := congrArg String.mk hd
    rwa [strMkData] at this
  | cons c0 rest =>
    unfold strContains at h
    rw [hd] at h
    dsimp only
    rw [splitOnAux_of_not_sub c0 rest _ s.data h]
    simp [strMkData]

/-- C10: `_split_vehicle_name` tries the ASCII slash before the full-width
slash and returns the ASCII-slash segmentation whenever it yields two or more
non-empty trimmed segments, without splitting those segments further. -/
theorem c10_ascii_slash_first (name : String)
    (h : 1 < (delimParts name "/").length) :
    splitVehicleName name = delimParts name "/" := by
  have hne : (name == "") = false := by
    cases he : name == ""
    · rfl
    · exfalso
      have hempty : name = "" := by simpa using he
      subst hempty
      have : (delimParts "" "/").length = 0 := by decide
      omega
  have hcontains : strContains name "/" = true := by
    cases hc : strContains name "/"
    · exfalso
      have hsplit : pySplit name "/" = [name] := pySplit_of_not_contains name "/" hc (by decide)
      have hle : (delimParts name "/").length ≤ 1 := by
        unfold delimParts
        rw [hsplit]
        have := List.length_filter_le (fun p => !p.isEmpty) ([name].map pyStrip)
        simpa using this
      omega
    · rfl
  unfold splitVehicleName
  simp [hne, hcontains, h]

/-- C10 witness: a name with both delimiters splits on the ASCII slash and the
resulting segments still contain the full-width slash. -/
theorem c10_ascii_slash_first_witness :
    splitVehicleName "A／B/C" = delimParts "A／B/C" "/" ∧
    delimParts "A／B/C" "/" = ["A／B", "C"] :=
  ⟨c10_ascii_slash_first "A／B/C" (by decide), by decide⟩

/-- The `(match.vehicle_name or "").strip()` computation on a string-valued
name is just `strip`. -/
theorem asStr_pyOr_str (s : String) : asStr (pyOr (Json.str s) (Json.str "")) = s := by
  by_cases h : s = ""
  · subst h
    rfl
  · have ht : truthy (Json.str s) = true := by
      simp [truthy, h]
    simp [pyOr, ht, asStr]

/-- Expansion of a one-element match list is the expansion of the match. -/
theorem expandVehicleNames_singleton (m : VehicleMatch) :
    expandVehicleNames [m] = expandOne m := by
  simp [expandVehicleNames]

/-- The branch structure of `expandOne` for a string-valued name. -/
theorem expandOne_str (m : VehicleMatch) (s : String) (hname : m.vehicle_name = Json.str s) :
    expandOne m =
      (if pyStrip s == "" then [m]
       else if (splitVehicleName (pyStrip s)).length ≤ 1 then [m]
       else (splitVehicleName (pyStrip s)).map (fun n => { m with vehicle_name := Json.str n })) := by
  unfold expandOne
  dsimp only
  rw [hname, asStr_pyOr_str]

/-- C7: a built match whose (stripped) string name splits into two or more
non-empty trimmed segments is replaced by one match per segment, each a copy
of the original differing only in `vehicle_name` (so the sources list is
carried unchanged); a name yielding fewer than two segments leaves the match
single and unchanged. -/
theorem c7_name_expansion (m : VehicleMatch) (s : String)
    (hname : m.vehicle_name = Json.str s) :
    (2 ≤ (splitVehicleName (pyStrip s)).length →
        expandVehicleNames [m] =
          (splitVehicleName (pyStrip s)).map (fun n => { m with vehicle_name := Json.str n }) ∧
        ∀ m' ∈ expandVehicleNames [m], m'.sources = m.sources)
  ∧ ((splitVehicleName (pyStrip s)).length ≤ 1 → expandVehicleNames [m] = [m]) := by
  rw [expandVehicleNames_singleton, expandOne_str m s hname]
  constructor
  · intro h2
    have hne : (pyStrip s == "") = false := by
      cases he : pyStrip s == ""
      · rfl
      · exfalso
        have hempty : pyStrip s = "" := by simpa using he
        rw [hempty] at h2
        have : (splitVehicleName "").length = 0 := by decide
        omega
    have hgt : ¬ (splitVehicleName (pyStrip s)).length ≤ 1 := by omega
    constructor
    · simp [hne, hgt]
    · intro m' hm'
      simp only [hne, Bool.false_eq_true, if_false, hgt, List.mem_map] at hm'
      obtain ⟨n, _, rfl⟩ := hm'
      rfl
  · intro h1
    cases he : pyStrip s == ""
    · simp [he, h1]
    · simp [he]

/-- C7 witness: the spec's `"Town Ace/LiteAce"` example with one default
source expands to two matches carrying the same sources. -/
def townAceMatch : VehicleMatch :=
  { manufacturer := Json.null
    vehicle_name := Json.str "Town Ace/LiteAce"
    displacement_cc := none
    sources := [Json.str "https://u1"] }

/-- C7 witness theorem. -/
theorem c7_name_expansion_witness :
    expandVehicleNames [townAceMatch] =
      [{ townAceMatch with vehicle_name := Json.str "Town Ace" },
       { townAceMatch with vehicle_name := Json.str "LiteAce" }] ∧
    ∀ m' ∈ expandVehicleNames [townAceMatch], m'.sources = [Json.str "https://u1"] := by
  have h := (c7_name_expansion townAceMatch "Town Ace/LiteAce" rfl).1 (by decide)
  exact ⟨h.1.trans (by rfl), fun m' hm' => (h.2 m' hm').trans rfl⟩

end CarLookup

namespace CarLookup

/-- The tool list the spec describes for the fallback: the original with every
modern grounding-tool entry removed and a legacy `googleSearch` entry appended
if not already present among the kept tools. -/
def legacyFallbackTools (tools : List Json) : List Json :=
  let kept := tools.filter (fun t => !(t.isObj && jsonHasKey t "googleSearchRetrieval"))
  if kept.any (fun t => t.isObj && jsonHasKey t "googleSearch") then kept
  else kept ++ [Json.obj [("googleSearch", Json.obj [])]]

/-- The fallback scan computes the filtered tool list and the
`googleSearch`-present flag over it. -/
theorem fallbackToolsScan_eq (tools : List Json) :
    fallbackToolsScan tools =
      (tools.filter (fun t => !(t.isObj && jsonHasKey t "googleSearchRetrieval")),
       (tools.filter (fun t => !(t.isObj && jsonHasKey t "googleSearchRetrieval"))).any
         (fun t => t.isObj && jsonHasKey t "googleSearch")) := by
  induction tools with
  | nil => rfl
  | cons tool rest ih =>
    cases tool with
    | obj kvs =>
      by_cases hk : jsonHasKey (Json.obj kvs) "googleSearchRetrieval"
      · simp [fallbackToolsScan, ih, hk, Json.isObj, List.filter]
      · simp [fallbackToolsScan, ih, hk, Json.isObj, List.filter, Bool.or_comm]
    | null => simp [fallbackToolsScan, ih, Json.isObj, List.filter, jsonHasKey]
    | bool b => simp [fallbackToolsScan, ih, Json.isObj, List.filter, jsonHasKey]
    | num q => simp [fallbackToolsScan, ih, Json.isObj, List.filter, jsonHasKey]
    | str s => simp [fallbackToolsScan, ih, Json.isObj, List.filter, jsonHasKey]
    | arr xs => simp [fallbackToolsScan, ih, Json.isObj, List.filter, jsonHasKey]

/-- The fallback payload is the original payload with the legacy tool list. -/
theorem buildGoogleSearchFallback_spec (payload : Payload) :
    buildGoogleSearchFallback payload =
      ({ payload with tools := legacyFallbackTools payload.tools },
       legacyFallbackTools payload.tools) := by
  unfold buildGoogleSearchFallback legacyFallbackTools
  rw [fallbackToolsScan_eq]

/-- Case equation for `_call_api`: a fallback-eligible 400 with fallback
permitted issues exactly the retry branch. -/
theorem callApi_fallback_eq (svc : ServiceState) (payload : Payload)
    (transport : Payload → HttpResponse)
    (h400 : (transport payload).status_code = 400)
    (hretry : shouldRetryWithoutGrounding svc 400 (transport payload).text = true)
    (hallow : svc.allow_google_search_fallback = true) :
    callApi svc payload transport =
      (if (transport (buildGoogleSearchFallback payload).1).status_code == 200 then
        (decodeResponseJson (transport (buildGoogleSearchFallback payload).1),
         { svc with tools := (buildGoogleSearchFallback payload).2,
                    uses_search_retrieval :=
                      computeUsesSearchRetrieval (buildGoogleSearchFallback payload).2 },
         [payload, (buildGoogleSearchFallback payload).1])
      else
        (.error (.geminiError
            (apiErrorMsg (transport (buildGoogleSearchFallback payload).1).status_code
              (transport (buildGoogleSearchFallback payload).1).text)),
         svc, [payload, (buildGoogleSearchFallback payload).1])) := by
  unfold callApi
  dsimp only
  rw [h400, hretry, hallow]
  rcases hbg : buildGoogleSearchFallback payload with ⟨fp, ft⟩
  simp

/-- Case equation for `_call_api`: a fallback-eligible 400 with fallback
denied raises the guidance error after the single request. -/
theorem callApi_denied_eq (svc : ServiceState) (payload : Payload)
    (transport : Payload → HttpResponse)
    (h400 : (transport payload).status_code = 400)
    (hretry : shouldRetryWithoutGrounding svc 400 (transport payload).text = true)
    (hdeny : svc.allow_google_search_fallback = false) :
    callApi svc payload transport =
      (.error (.geminiError fallbackGuidanceMsg), svc, [payload]) := by
  unfold callApi
  dsimp only
  rw [h400, hretry, hdeny]
  simp

/-- The eligibility condition assembled from its parts. -/
theorem shouldRetry_of_parts (svc : ServiceState) (body : String)
    (htool : svc.uses_search_retrieval = true)
    (hind : (strContains (strLower body) "search grounding is not supported"
             || strContains (strLower body) "groundingmode") = true) :
    shouldRetryWithoutGrounding svc 400 body = true := by
  unfold shouldRetryWithoutGrounding
  rw [htool]
  simpa using hind

/-- C2: on a fallback-eligible 400 response (modern grounding active,
indicator phrase in body) with fallback permitted, exactly one retry is
issued whose tool list is the original with modern grounding entries removed
and a legacy `googleSearch` entry appended if absent; if the retry returns
200, the returned service state durably carries the legacy tool list. -/
theorem c2_fallback_retry (svc : ServiceState) (payload : Payload)
    (transport : Payload → HttpResponse)
    (h400 : (transport payload).status_code = 400)
    (htool : svc.uses_search_retrieval = true)
    (hind : (strContains (strLower (transport payload).text) "search grounding is not supported"
             || strContains (strLower (transport payload).text) "groundingmode") = true)
    (hallow : svc.allow_google_search_fallback = true) :
    (callApi svc payload transport).2.2 =
      [payload, { payload with tools := legacyFallbackTools payload.tools }] ∧
    ((transport ({ payload with tools := legacyFallbackTools payload.tools } : Payload)).status_code = 200 →
      (callApi svc payload transport).2.1.tools = legacyFallbackTools payload.tools) := by
  have hretry := shouldRetry_of_parts svc (transport payload).text htool hind
  have hcall := callApi_fallback_eq svc payload transport h400 hretry hallow
  rw [buildGoogleSearchFallback_spec payload] at hcall
  dsimp only at hcall
  rw [hcall]
  by_cases h200 : (transport { payload with tools := legacyFallbackTools payload.tools }).status_code = 200
  · rw [h200]
    exact ⟨rfl, fun _ => rfl⟩
  · have hb : ((transport { payload with tools := legacyFallbackTools payload.tools }).status_code == 200) = false := by
      simpa using h200
    rw [hb]
    exact ⟨rfl, fun hc => absurd hc h200⟩

/-- C2 witness data: a service using the modern grounding tool with fallback
permitted. -/
def svcModern : ServiceState :=
  { include_raw_response := false
    tools := [Json.obj [("googleSearchRetrieval", Json.obj [])]]
    uses_search_retrieval := true
    allow_google_search_fallback := true
    system_instruction := Json.null
    response_language := ""
    response_mime_type := Json.null
    response_schema := Json.null }

/-- C2 witness transport: rejects the modern grounding tool with a 400 and
accepts the legacy configuration. -/
def trFallback : Payload → HttpResponse := fun p =>
  if computeUsesSearchRetrieval p.tools then
    { status_code := 400, text := "Search grounding is not supported for this project." }
  else
    { status_code := 200, text := "\x7b\"candidates\": []\x7d" }

/-- C2 witness payload. -/
def payloadModern : Payload :=
  { contents := Json.arr []
    tools := svcModern.tools
    generationConfig := Json.obj []
    systemInstruction := Json.null }

/-- C2 witness theorem. -/
theorem c2_fallback_retry_witness :
    (callApi svcModern payloadModern trFallback).2.2 =
      [payloadModern, { payloadModern with tools := legacyFallbackTools payloadModern.tools }] ∧
    (callApi svcModern payloadModern trFallback).2.1.tools = legacyFallbackTools payloadModern.tools := by
  have h := c2_fallback_retry svcModern payloadModern trFallback rfl rfl (by decide) rfl
  exact ⟨h.1, h.2 rfl⟩

/-- C4: on the same fallback-eligible 400 response with fallback not
permitted, the call fails with the guidance-carrying error (whose message
names `allow_google_search_fallback=True`), no second request is issued, and
`lookup` propagates that error. -/
theorem c4_fallback_denied (svc : ServiceState) (payload : Payload)
    (transport : Payload → HttpResponse)
    (h400 : (transport payload).status_code = 400)
    (htool : svc.uses_search_retrieval = true)
    (hind : (strContains (strLower (transport payload).text) "search grounding is not supported"
             || strContains (strLower (transport payload).text) "groundingmode") = true)
    (hdeny : svc.allow_google_search_fallback = false) :
    (callApi svc payload transport).1 = .error (.geminiError fallbackGuidanceMsg) ∧
    (callApi svc payload transport).2.2 = [payload] ∧
    strContains fallbackGuidanceMsg "allow_google_search_fallback=True" = true ∧
    (∀ code : String, (code == "") = false → (pyStrip code == "") = false →
       payload = buildPayload svc (pyStrip code) →
       (lookup svc code transport).1 = .error (.geminiError fallbackGuidanceMsg)) := by
  have hretry := shouldRetry_of_parts svc (transport payload).text htool hind
  have hcall := callApi_denied_eq svc payload transport h400 hretry hdeny
  refine ⟨by rw [hcall], by rw [hcall], by decide, ?_⟩
  intro code hc hcs hp
  unfold lookup
  rw [hc, hcs]
  dsimp only
  rw [← hp, hcall]
  simp

/-- C4 witness data: the modern-grounding service with fallback denied. -/
def svcDenied : ServiceState :=
  { svcModern with allow_google_search_fallback := false }

/-- C4 witness theorem. -/
theorem c4_fallback_denied_witness :
    (callApi svcDenied payloadModern trFallback).1 = .error (.geminiError fallbackGuidanceMsg) ∧
    (callApi svcDenied payloadModern trFallback).2.2 = [payloadModern] := by
  have h := c4_fallback_denied svcDenied payloadModern trFallback rfl rfl (by decide) rfl
  exact ⟨h.1, h.2.1⟩

end CarLookup

namespace CarLookup

/-- Outcomes of `_parse_matches` on success: the list is never empty, and an
empty normalization yields exactly the synthesized placeholder. -/
theorem parseMatches_ok (response : Json) (code : String) (ms : List VehicleMatch)
    (h : parseMatches response code = .ok ms) :
    ms ≠ [] ∧
    ∀ srcs : List Json, normalizeCandidate response = .ok ([], srcs) →
      ms = [placeholderMatch code srcs] := by
  unfold parseMatches at h
  cases hn : normalizeCandidate response with
  | error e =>
    rw [hn] at h
    simp [Bind.bind, Except.bind] at h
  | ok p =>
    obtain ⟨expanded, sources⟩ := p
    rw [hn] at h
    simp only [Bind.bind, Except.bind] at h
    by_cases hemp : expanded.isEmpty
    · simp only [hemp, if_true, pure, Except.pure, Except.ok.injEq] at h
      subst h
      refine ⟨by simp, ?_⟩
      intro srcs hs
      injection hs with hs
      injection hs with h1 h2
      rw [h2]
    · simp only [hemp, Bool.false_eq_true, if_false, pure, Except.pure, Except.ok.injEq] at h
      subst h
      constructor
      · intro hnil
        rw [hnil] at hemp
        exact hemp rfl
      · intro srcs hs
        injection hs with hs
        injection hs with h1 h2
        rw [h1] at hemp
        exact absurd rfl hemp

/-- C1: whenever `_parse_matches` returns, its match list is non-empty; when
parsing and expansion yield no matches, the list is exactly the one
synthesized placeholder (identity fields unset, confidence low, notes
explaining the missing data, sources the discovered defaults); and a
successful `lookup` therefore always carries a non-empty match list. -/
theorem c1_nonempty_matches :
    (∀ (response : Json) (code : String) (ms : List VehicleMatch),
        parseMatches response code = .ok ms →
        ms ≠ [] ∧
        ∀ srcs : List Json, normalizeCandidate response = .ok ([], srcs) →
          ms = [placeholderMatch code srcs])
  ∧ (∀ (svc : ServiceState) (code : String) (transport : Payload → HttpResponse)
        (r : LookupResult),
        (lookup svc code transport).1 = .ok r → r.«matches» ≠ []) := by
  refine ⟨parseMatches_ok, ?_⟩
  intro svc code transport r h
  unfold lookup at h
  cases hg : (code == "" || pyStrip code == "") with
  | true =>
    rw [hg] at h
    simp at h
  | false =>
    rw [hg] at h
    simp only [Bool.false_eq_true, if_false] at h
    rcases hca : callApi svc (buildPayload svc (pyStrip code)) transport with ⟨resE, svc2, reqs⟩
    rw [hca] at h
    cases resE with
    | error e => simp at h
    | ok response =>
      dsimp only at h
      cases hpm : parseMatches response (pyStrip code) with
      | error e =>
        rw [hpm] at h
        simp at h
      | ok parsed =>
        rw [hpm] at h
        simp only [Except.ok.injEq] at h
        have hne := (parseMatches_ok response (pyStrip code) parsed hpm).1
        rw [← h]
        exact hne

/-- C1 witness data: a backend response whose text payload carries an empty
vehicles array. -/
def emptyVehiclesResponse : Json :=
  Json.obj [("candidates", Json.arr [Json.obj [("content", Json.obj [("parts",
    Json.arr [Json.obj [("text", Json.str "\x7b\"vehicles\": []\x7d")]])])]])]

/-- C1 witness theorem: the empty-vehicles response produces exactly the
placeholder match. -/
theorem c1_nonempty_matches_witness :
    parseMatches emptyVehiclesResponse "5BA-TALA15" =
      .ok [placeholderMatch "5BA-TALA15" []] ∧
    [placeholderMatch "5BA-TALA15" []] ≠ [] ∧
    [placeholderMatch "5BA-TALA15" []] = [placeholderMatch "5BA-TALA15" []] := by
  have h := c1_nonempty_matches.1 emptyVehiclesResponse "5BA-TALA15"
      [placeholderMatch "5BA-TALA15" []] rfl
  exact ⟨rfl, h.1, h.2 [] rfl⟩

end CarLookup

namespace CarLookup

/-- C3 counterexample service: raw-response inclusion disabled. -/
def svcNoRaw : ServiceState :=
  { include_raw_response := false
    tools := [Json.obj [("googleSearch", Json.obj [])]]
    uses_search_retrieval := false
    allow_google_search_fallback := false
    system_instruction := Json.null
    response_language := ""
    response_mime_type := Json.null
    response_schema := Json.null }

/-- C3 counterexample transport: a 200 response whose body carries an empty
vehicles payload and a `usageMetadata` object. -/
def trUsage : Payload → HttpResponse := fun _ =>
  { status_code := 200
    text := "\x7b\"candidates\": [\x7b\"content\": \x7b\"parts\": [\x7b\"text\": \"\x7b\\\"vehicles\\\": []\x7d\"\x7d]\x7d\x7d], \"usageMetadata\": \x7b\"promptTokenCount\": 5\x7d\x7d" }

/-- C3 counterexample: with raw-response inclusion disabled, `lookup` still
returns the backend's usage metadata — `usage_metadata` is not `None`, so the
claim that both fields are absent fails. -/
theorem c3_counterexample_usage_metadata :
    svcNoRaw.include_raw_response = false ∧
    (lookup svcNoRaw "ZRR70" trUsage).1 =
      .ok { model_code := "ZRR70"
            «matches» := [placeholderMatch "ZRR70" []]
            raw_response := Json.null
            usage_metadata := Json.obj [("promptTokenCount", Json.num 5)] } ∧
    (Json.obj [("promptTokenCount", Json.num 5)] : Json) ≠ Json.null := by
  refine ⟨rfl, rfl, ?_⟩
  intro h
  cases h

/-- C3 (amended): when raw-response inclusion is disabled the result carries
no raw response, but `usage_metadata` is always populated from the decoded
response's `usageMetadata` field (null only when the backend omitted it),
regardless of the raw-response setting. -/
theorem c3_amended_raw_gated_usage_not (svc : ServiceState) (code : String)
    (transport : Payload → HttpResponse) (r : LookupResult)
    (hok : (lookup svc code transport).1 = .ok r) :
    (svc.include_raw_response = false → r.raw_response = Json.null) ∧
    ∀ j : Json, (callApi svc (buildPayload svc (pyStrip code)) transport).1 = .ok j →
      r.usage_metadata = jget j "usageMetadata" := by
  unfold lookup at hok
  cases hg : (code == "" || pyStrip code == "") with
  | true =>
    rw [hg] at hok
    simp at hok
  | false =>
    rw [hg] at hok
    simp only [Bool.false_eq_true, if_false] at hok
    rcases hca : callApi svc (buildPayload svc (pyStrip code)) transport with ⟨resE, svc2, reqs⟩
    rw [hca] at hok
    cases resE with
    | error e => simp at hok
    | ok response =>
      dsimp only at hok
      cases hpm : parseMatches response (pyStrip code) with
      | error e =>
        rw [hpm] at hok
        simp at hok
      | ok parsed =>
        rw [hpm] at hok
        simp only [Except.ok.injEq] at hok
        subst hok
        constructor
        · intro hraw
          simp [hraw]
        · intro j hj
          simp only at hj
          injection hj with hj
          rw [hj]

/-- C3 witness for the amended statement, at the counterexample input. -/
theorem c3_amended_raw_gated_usage_not_witness :
    ((lookup svcNoRaw "ZRR70" trUsage).1 =
        .ok { model_code := "ZRR70"
              «matches» := [placeholderMatch "ZRR70" []]
              raw_response := Json.null
              usage_metadata := Json.obj [("promptTokenCount", Json.num 5)] }) ∧
    ({ model_code := "ZRR70"
       «matches» := [placeholderMatch "ZRR70" []]
       raw_response := Json.null
       usage_metadata := Json.obj [("promptTokenCount", Json.num 5)] } : LookupResult).raw_response
      = Json.null := by
  refine ⟨rfl, ?_⟩
  have h := c3_amended_raw_gated_usage_not svcNoRaw "ZRR70" trUsage
      { model_code := "ZRR70"
        «matches» := [placeholderMatch "ZRR70" []]
        raw_response := Json.null
        usage_metadata := Json.obj [("promptTokenCount", Json.num 5)] } rfl
  exact h.1 rfl

end CarLookup

namespace CarLookup

/-- The specification-side characterization of first-occurrence
de-duplication: keep each element, dropping every later Python-equal
duplicate. -/
def firstOccur : List Json → List Json
  | [] => []
  | x :: xs => x :: firstOccur (xs.filter (fun y => !pyEq x y))
termination_by l => l.length
decreasing_by
  simp only [List.length_cons]
  exact Nat.lt_succ_of_le (List.length_filter_le _ _)

/-- Equation: first occurrence of the empty list. -/
theorem firstOccur_nil : firstOccur [] = [] := by
  rw [firstOccur]

/-- Equation: first occurrence of a cons. -/
theorem firstOccur_cons (x : Json) (xs : List Json) :
    firstOccur (x :: xs) = x :: firstOccur (xs.filter (fun y => !pyEq x y)) := by
  rw [firstOccur]

/-- Composing two filters filters by the conjunction. -/
theorem filter_and (p q : Json → Bool) :
    ∀ l : List Json, (l.filter p).filter q = l.filter (fun a => p a && q a) := by
  intro l
  induction l with
  | nil => rfl
  | cons x xs ih =>
    by_cases hp : p x = true
    · by_cases hq : q x = true
      · simp [List.filter, hp, hq, ih]
      · have hq' : q x = false := by simpa using hq
        simp [List.filter, hp, hq', ih]
    · have hp' : p x = false := by simpa using hp
      simp [List.filter, hp', ih]

/-- The dict-based de-duplication fold computes first-occurrence
de-duplication relative to what the accumulator already holds. -/
theorem dedup_fold_eq :
    ∀ (xs acc : List Json),
      xs.foldl (fun acc url => if acc.any (fun v => pyEq v url) then acc else acc ++ [url]) acc
        = acc ++ firstOccur (xs.filter (fun y => !(acc.any (fun v => pyEq v y)))) := by
  intro xs
  induction xs with
  | nil =>
    intro acc
    simp [firstOccur_nil]
  | cons x xs ih =>
    intro acc
    simp only [List.foldl_cons]
    by_cases hx : acc.any (fun v => pyEq v x) = true
    · rw [if_pos hx, ih acc]
      have hfilter : (x :: xs).filter (fun y => !(acc.any (fun v => pyEq v y)))
          = xs.filter (fun y => !(acc.any (fun v => pyEq v y))) := by
        simp [List.filter, hx]
      rw [hfilter]
    · have hx' : acc.any (fun v => pyEq v x) = false := by
        simpa using hx
      rw [if_neg (by simp [hx']), ih (acc ++ [x])]
      have hfilter : (x :: xs).filter (fun y => !(acc.any (fun v => pyEq v y)))
          = x :: xs.filter (fun y => !(acc.any (fun v => pyEq v y))) := by
        simp [List.filter, hx']
      rw [hfilter, firstOccur_cons, filter_and]
      have hpred : xs.filter (fun y => (!acc.any (fun v => pyEq v y)) && !pyEq x y)
          = xs.filter (fun y => !(acc ++ [x]).any (fun v => pyEq v y)) := by
        apply List.filter_congr
        intro y _
        simp [List.any_append, Bool.not_or]
      rw [hpred]
      simp

/-- Every element of the first-occurrence list comes from the original. -/
theorem firstOccur_subset :
    ∀ (l : List Json) (b : Json), b ∈ firstOccur l → b ∈ l
  | [], b, hb => by
    rw [firstOccur_nil] at hb
    cases hb
  | x :: xs, b, hb => by
    rw [firstOccur_cons] at hb
    rcases List.mem_cons.mp hb with hb | hb
    · exact hb ▸ List.mem_cons_self x xs
    · have := firstOccur_subset (xs.filter (fun y => !pyEq x y)) b hb
      exact List.mem_cons_of_mem x (List.mem_of_mem_filter this)
termination_by l => l.length
decreasing_by
  simp only [List.length_cons]
  exact Nat.lt_succ_of_le (List.length_filter_le _ _)

/-- The first-occurrence list has no Python-equal duplicates. -/
theorem firstOccur_pairwise :
    ∀ l : List Json, List.Pairwise (fun a b => pyEq a b = false) (firstOccur l)
  | [] => by simp [firstOccur_nil]
  | x :: xs => by
    rw [firstOccur_cons]
    constructor
    · intro b hb
      have hmem := firstOccur_subset _ b hb
      have := List.of_mem_filter hmem
      simpa using this
    · exact firstOccur_pairwise (xs.filter (fun y => !pyEq x y))
termination_by l => l.length
decreasing_by
  simp only [List.length_cons]
  exact Nat.lt_succ_of_le (List.length_filter_le _ _)

/-- The per-match merge loop adds nothing when every string source is already
present. -/
theorem merge_fold_id (ds : List Json) :
    ∀ xs : List Json,
      (∀ u ∈ xs, u.isStr = true → ds.any (fun v => pyEq v u) = true) →
      xs.foldl (fun acc url =>
        if url.isStr && !(acc.any (fun v => pyEq v url)) then acc ++ [url] else acc) ds = ds := by
  intro xs
  induction xs with
  | nil => intro _; rfl
  | cons x xs ih =>
    intro hall
    simp only [List.foldl_cons]
    have hstep : (if x.isStr && !(ds.any (fun v => pyEq v x)) then ds ++ [x] else ds) = ds := by
      by_cases hstr : x.isStr = true
      · have := hall x (List.mem_cons_self x xs) hstr
        simp [hstr, this]
      · have hstr' : x.isStr = false := by simpa using hstr
        simp [hstr']
    rw [hstep]
    exact ih (fun u hu => hall u (List.mem_cons_of_mem x hu))

/-- C8: the grounding-source list extracted from a candidate is the
first-occurrence de-duplication of the scanned URLs (chunks, then supports,
then citations) and contains no Python-equal duplicates; and the per-match
source merge is the identity when every per-vehicle string source is already
present in the source list. -/
theorem c8_source_dedup :
    (∀ candidate : Json,
        extractGroundedSources candidate = firstOccur (rawGroundedSources candidate) ∧
        List.Pairwise (fun a b => pyEq a b = false) (extractGroundedSources candidate))
  ∧ (∀ (ds : List Json) (item : Json) (xs : List Json),
        jget item "sources" = Json.arr xs →
        (∀ u ∈ xs, u.isStr = true → ds.any (fun v => pyEq v u) = true) →
        (buildMatch item ds).sources = ds) := by
  constructor
  · intro candidate
    have heq : extractGroundedSources candidate = firstOccur (rawGroundedSources candidate) := by
      unfold extractGroundedSources dedupSources
      rw [dedup_fold_eq (rawGroundedSources candidate) []]
      simp
    refine ⟨heq, ?_⟩
    rw [heq]
    exact firstOccur_pairwise _
  · intro ds item xs hsrc hall
    have hval : (buildMatch item ds).sources = mergeSources ds (jget item "sources") := rfl
    rw [hval, hsrc]
    unfold mergeSources
    exact merge_fold_id ds xs hall

/-- C8 witness candidate: grounding metadata with a duplicated chunk URL
across chunks, supports, and citations. -/
def groundedCandidate : Json :=
  Json.obj [("groundingMetadata", Json.obj
    [("groundingChunks", Json.arr
       [Json.obj [("web", Json.obj [("uri", Json.str "u1")])],
        Json.obj [("web", Json.obj [("url", Json.str "u2")])]]),
     ("groundingSupports", Json.arr
       [Json.obj [("groundingChunks", Json.arr
          [Json.obj [("web", Json.obj [("uri", Json.str "u1")])]])]]),
     ("citations", Json.arr
       [Json.obj [("url", Json.str "u3")], Json.obj [("url", Json.str "u2")]])])]

/-- C8 witness theorem. -/
theorem c8_source_dedup_witness :
    extractGroundedSources groundedCandidate = firstOccur (rawGroundedSources groundedCandidate) ∧
    List.Pairwise (fun a b => pyEq a b = false) (extractGroundedSources groundedCandidate) ∧
    (buildMatch (Json.obj [("sources", Json.arr [Json.str "u1"])]) [Json.str "u1"]).sources
      = [Json.str "u1"] := by
  have hA := c8_source_dedup.1 groundedCandidate
  have hB := c8_source_dedup.2 [Json.str "u1"] (Json.obj [("sources", Json.arr [Json.str "u1"])])
      [Json.str "u1"] rfl (by decide)
  exact ⟨hA.1, hA.2, hB⟩

end CarLookup

namespace CarLookup

/-- Presence of a key in a serialized dictionary. -/
def dictHasKey (d : List (String × Json)) (k : String) : Bool :=
  d.any (fun kv => kv.1 == k)

/-- A value passes the serialization filter exactly when it is not `None`,
not the empty string, and not an empty list. -/
theorem omittedValue_false_iff (v : Json) :
    omittedValue v = false ↔ (v ≠ Json.null ∧ v ≠ Json.str "" ∧ v ≠ Json.arr []) := by
  cases v with
  | null => simp [omittedValue]
  | bool b => simp [omittedValue]
  | num q => simp [omittedValue]
  | str s =>
    by_cases h : s = ""
    · subst h
      simp [omittedValue]
    · simp [omittedValue, h]
  | arr xs =>
    cases xs with
    | nil => simp [omittedValue]
    | cons y ys => simp [omittedValue]
  | obj kvs => simp [omittedValue]

/-- Key presence in a serialized match, pushed through the filter. -/
theorem to_dict_hasKey (m : VehicleMatch) (k : String) :
    dictHasKey m.to_dict k = m.fieldPairs.any (fun kv => !omittedValue kv.2 && kv.1 == k) := by
  unfold VehicleMatch.to_dict dictHasKey
  rw [List.any_filter]

/-- C9: a serialized match contains each field's key exactly when that field's
value is not None, not the empty string, and not an empty list (for the typed
displacement: exactly when it is set; for the sources list: exactly when it is
non-empty); a serialized result carries `usage_metadata` and `raw_response`
exactly when those fields are non-null, while `model_code` and `matches` are
always present. -/
theorem c9_serialization_omits_empty :
    (∀ m : VehicleMatch,
        (dictHasKey m.to_dict "manufacturer" = true ↔
          (m.manufacturer ≠ Json.null ∧ m.manufacturer ≠ Json.str "" ∧ m.manufacturer ≠ Json.arr [])) ∧
        (dictHasKey m.to_dict "vehicle_name" = true ↔
          (m.vehicle_name ≠ Json.null ∧ m.vehicle_name ≠ Json.str "" ∧ m.vehicle_name ≠ Json.arr [])) ∧
        (dictHasKey m.to_dict "displacement_cc" = true ↔ m.displacement_cc ≠ none) ∧
        (dictHasKey m.to_dict "grade_or_variant" = true ↔
          (m.grade_or_variant ≠ Json.null ∧ m.grade_or_variant ≠ Json.str "" ∧ m.grade_or_variant ≠ Json.arr [])) ∧
        (dictHasKey m.to_dict "years" = true ↔
          (m.years ≠ Json.null ∧ m.years ≠ Json.str "" ∧ m.years ≠ Json.arr [])) ∧
        (dictHasKey m.to_dict "confidence" = true ↔
          (m.confidence ≠ Json.null ∧ m.confidence ≠ Json.str "" ∧ m.confidence ≠ Json.arr [])) ∧
        (dictHasKey m.to_dict "notes" = true ↔
          (m.notes ≠ Json.null ∧ m.notes ≠ Json.str "" ∧ m.notes ≠ Json.arr [])) ∧
        (dictHasKey m.to_dict "sources" = true ↔ m.sources ≠ []))
  ∧ (∀ r : LookupResult,
        (dictHasKey r.to_dict "usage_metadata" = true ↔ r.usage_metadata ≠ Json.null) ∧
        (dictHasKey r.to_dict "raw_response" = true ↔ r.raw_response ≠ Json.null) ∧
        dictHasKey r.to_dict "model_code" = true ∧
        dictHasKey r.to_dict "matches" = true) := by
  constructor
  · intro m
    refine ⟨?_, ?_, ?_, ?_, ?_, ?_, ?_, ?_⟩
    · rw [to_dict_hasKey]
      simp [VehicleMatch.fieldPairs, ← omittedValue_false_iff]
    · rw [to_dict_hasKey]
      simp [VehicleMatch.fieldPairs, ← omittedValue_false_iff]
    · rw [to_dict_hasKey]
      cases hd : m.displacement_cc <;>
        simp [VehicleMatch.fieldPairs, hd, omittedValue]
    · rw [to_dict_hasKey]
      simp [VehicleMatch.fieldPairs, ← omittedValue_false_iff]
    · rw [to_dict_hasKey]
      simp [VehicleMatch.fieldPairs, ← omittedValue_false_iff]
    · rw [to_dict_hasKey]
      simp [VehicleMatch.fieldPairs, ← omittedValue_false_iff]
    · rw [to_dict_hasKey]
      simp [VehicleMatch.fieldPairs, ← omittedValue_false_iff]
    · rw [to_dict_hasKey]
      cases hs : m.sources <;>
        simp [VehicleMatch.fieldPairs, hs, omittedValue]
  · intro r
    cases hu : r.usage_metadata <;> cases hr : r.raw_response <;>
      simp [LookupResult.to_dict, dictHasKey, hu, hr]

/-- C9 witness: a placeholder match serializes with its confidence key, and a
result always serializes its model code key. -/
theorem c9_serialization_omits_empty_witness :
    dictHasKey (placeholderMatch "X" []).to_dict "confidence" = true ∧
    dictHasKey ({ model_code := "X", «matches» := [] } : LookupResult).to_dict "model_code" = true := by
  constructor
  · apply ((c9_serialization_omits_empty.1 (placeholderMatch "X" [])).2.2.2.2.2.1).mpr
    refine ⟨?_, ?_, ?_⟩ <;> intro h <;> simp [placeholderMatch] at h
  · exact (c9_serialization_omits_empty.2 { model_code := "X", «matches» := [] }).2.2.1

end CarLookup
